import Mathlib

/-!
# Verification of the css-blocks Block model and conflict-resolution compiler

This file gives a shallow embedding, in Lean 4, of the parts of the css-blocks
compiler core that the verified properties talk about:

* the 3-state conflict classification lattice and `updateConflict`
  (src/BlockCompiler/ConflictResolver.ts, lines 12-51);
* the inheritance-chain walk performed by `resolve()` for each
  `resolve()`/`resolve-inherited()` declaration (ConflictResolver.ts, lines 192-198),
  with the per-level classification `resolveConflictWith` abstracted as a
  function parameter `classify`;
* the override/underride scan over sibling declarations of the same property
  (ConflictResolver.ts, lines 144-173);
* the self-block and ancestor-block target checks (ConflictResolver.ts,
  lines 176-188) together with `Block.equal` and `Block.isAncestor`
  (Block model source, `equal` / `isAncestor`);
* the one-time Block `name` setter (Block model source, `set name`);
* the block-syntax cleanup pass and pass ordering of `BlockCompiler.compile`
  (src/BlockCompiler.ts, lines 20-54);
* the guard of `ConflictResolver.resolveInheritance` (ConflictResolver.ts,
  lines 71-127), with the per-rule walk body abstracted;
* `splitSelector` / `mergeKeySelectors` (ConflictResolver.ts, lines 303-408)
  over a compound-selector chain model;
* `Style.resolveStyles` memoization and defensive copying, over an explicit
  small heap of set objects so that object identity and mutation of the
  returned sets are expressible.

Mutable JS state is embedded by explicit state passing; thrown exceptions by
`Except String`; CSS declaration values by a sum type distinguishing concrete
values from `resolve()`/`resolve-inherited()` calls (the `RESOLVE_RE` match).
-/

namespace CssBlocks

/-! ## Conflict classification lattice (ConflictResolver.ts, lines 12-16, 37-51) -/

/-- `enum ConflictType { conflict, noconflict, samevalues }`. -/
inductive ConflictType where
  | conflict
  | noconflict
  | samevalues
deriving DecidableEq, Repr

/-- Direct translation of `updateConflict(t1, t2)` (ConflictResolver.ts, lines 37-51). -/
def updateConflict (t1 t2 : ConflictType) : ConflictType :=
  match t1 with
  | ConflictType.conflict => ConflictType.conflict
  | ConflictType.noconflict => t2
  | ConflictType.samevalues =>
    match t2 with
    | ConflictType.conflict => ConflictType.conflict
    | _ => ConflictType.samevalues

/-! ## Blocks and block objects

`Blk` models the `Block` class for the purposes of identifier equality and the
single-inheritance `base` chain: a block carries its opaque `identifier` and an
optional base block.  The chain is represented structurally, which matches the
source's requirement that following `base` pointers terminates. -/

/-- A `Block` as seen by `equal` / `isAncestor`: an identifier plus the
`extends` base chain. -/
inductive Blk where
  | mk (identifier : String) (base : Option Blk)

/-- Field accessor for `Blk.identifier`. -/
def Blk.identifier : Blk → String
  | Blk.mk i _ => i

/-- Field accessor for `Blk.base`. -/
def Blk.base : Blk → Option Blk
  | Blk.mk _ b => b

/-- `Block.equal(other) { return other && this.identifier === other.identifier; }` -/
def Blk.equal (self : Blk) : Option Blk → Bool
  | none => false
  | some o => self.identifier == o.identifier

/-- The `while (base) { if (this.equal(base)) return true; base = base.base; }`
loop of `Block.isAncestor`, entered at the first candidate `base`. -/
def Blk.ancestorWalk (self : Blk) : Blk → Bool
  | Blk.mk i none => self.equal (some (Blk.mk i none))
  | Blk.mk i (some b) =>
    if self.equal (some (Blk.mk i (some b))) then true else self.ancestorWalk b

/-- `Block.isAncestor(other)`: true iff `self` occurs (by identifier equality)
in the strict `base` chain of `other`. -/
def Blk.isAncestor (self : Blk) (other : Option Blk) : Bool :=
  match other with
  | none => false
  | some o =>
    match o.base with
    | none => false
    | some b => self.ancestorWalk b

/-- A `BlockObject` as used by the `resolve()` chain walk: the owning block
plus the style-level `base` pointer to the overridden object in a parent
block. -/
inductive BObj where
  | mk (block : Blk) (base : Option BObj)

/-- Field accessor for `BObj.block`. -/
def BObj.block : BObj → Blk
  | BObj.mk b _ => b

/-- Field accessor for `BObj.base`. -/
def BObj.base : BObj → Option BObj
  | BObj.mk _ b => b

/-! ## The inheritance-chain walk of `resolve()` (ConflictResolver.ts, lines 192-198)

```
let foundConflict = ConflictType.noconflict;
while (other && foundConflict === ConflictType.noconflict) {
  foundConflict = this.resolveConflictWith(referenceStr, other, decl, otherDecls, isOverride);
  if (foundConflict === ConflictType.noconflict) {
    other = other.base;
  }
}
```

The per-level call `resolveConflictWith(...)` is abstracted as `classify`,
a function of the current chain object (all its other arguments are fixed
for the duration of the loop). -/

/-- The chain walk, entered with `other = some o`.  Returns the final value of
`foundConflict`. -/
def walkChain (classify : BObj → ConflictType) : BObj → ConflictType
  | BObj.mk blk none =>
    let fc := classify (BObj.mk blk none)
    if fc = ConflictType.noconflict then ConflictType.noconflict else fc
  | BObj.mk blk (some b) =>
    let fc := classify (BObj.mk blk (some b))
    if fc = ConflictType.noconflict then walkChain classify b else fc

/-! ## Declarations

A postcss `Declaration` is a `(prop, value)` pair.  The value domain
distinguishes concrete CSS values from values matching `RESOLVE_RE`
(`resolve("...")` / `resolve-inherited("...")`, ConflictResolver.ts line 22);
`inherited` records the `-inherited` capture group and `ref` the reference
string capture. -/

/-- A declaration value: either a concrete CSS value or a
`resolve()`/`resolve-inherited()` call. -/
inductive DeclValue where
  | concrete (v : String)
  | resolve (inherited : Bool) (ref : String)
deriving DecidableEq, Repr

/-- `decl.value.match(RESOLVE_RE) !== null`. -/
def isResolveValue : DeclValue → Bool
  | DeclValue.concrete _ => false
  | DeclValue.resolve _ _ => true

/-- A postcss declaration node. -/
structure Decl where
  prop : String
  value : DeclValue
deriving DecidableEq, Repr

/-! ## The override/underride scan (ConflictResolver.ts, lines 144-173)

```
let otherDecls: postcss.Declaration[] = [];
let isOverride = false;
let foundOtherValue: number | null = null;
let foundResolve: number | null = null;
decl.parent.walkDecls(decl.prop, (otherDecl, idx) => {
  if (otherDecl.value.match(RESOLVE_RE)) {
    if (otherDecl.value !== decl.value) { return; }
    foundResolve = idx;
    isOverride = (foundOtherValue !== null);
  } else {
    if (foundOtherValue !== null && foundResolve !== null && foundOtherValue < foundResolve) {
      throw new errors.InvalidBlockSyntax(`Resolving ... must happen either before or after all other values ...`);
    }
    foundOtherValue = idx;
    otherDecls.push(otherDecl);
  }
});
if (foundOtherValue === null) {
  throw new errors.InvalidBlockSyntax(`Cannot resolve ... without a concrete value.`);
}
```
-/

/-- The four mutable locals of the scan. -/
structure ScanState where
  otherDecls : List Decl
  isOverride : Bool
  foundOtherValue : Option Nat
  foundResolve : Option Nat
deriving DecidableEq, Repr

/-- Initial scan state. -/
def initScan : ScanState :=
  { otherDecls := [], isOverride := false, foundOtherValue := none, foundResolve := none }

/-- Error message of the mixed before/after throw (ConflictResolver.ts line 163). -/
def mixedResolveMsg (prop : String) : String :=
  "Resolving " ++ prop ++ " must happen either before or after all other values for " ++ prop ++ "."

/-- Error message of the missing-concrete-value throw (ConflictResolver.ts line 172). -/
def noConcreteValueMsg (prop : String) : String :=
  "Cannot resolve " ++ prop ++ " without a concrete value."

/-- One iteration of the `walkDecls` callback, for a declaration `other` at
index `idx`, where `dv` is the value of the `resolve()` declaration being
processed (`decl.value`). -/
def scanStep (prop : String) (dv : DeclValue) (st : ScanState) (idx : Nat) (other : Decl) :
    Except String ScanState :=
  if isResolveValue other.value then
    if other.value == dv then
      Except.ok { st with foundResolve := some idx, isOverride := st.foundOtherValue.isSome }
    else
      Except.ok st
  else
    match st.foundOtherValue, st.foundResolve with
    | some j, some k =>
      if j < k then
        Except.error (mixedResolveMsg prop)
      else
        Except.ok { st with foundOtherValue := some idx, otherDecls := st.otherDecls ++ [other] }
    | _, _ =>
      Except.ok { st with foundOtherValue := some idx, otherDecls := st.otherDecls ++ [other] }

/-- `decl.parent.walkDecls(decl.prop, ...)`: visit the rule's declarations in
source order with their node index, invoking the callback on those whose
`prop` equals `decl.prop`. -/
def scanDecls (prop : String) (dv : DeclValue) : List Decl → Nat → ScanState → Except String ScanState
  | [], _, st => Except.ok st
  | d :: rest, idx, st =>
    if d.prop == prop then
      match scanStep prop dv st idx d with
      | Except.error e => Except.error e
      | Except.ok st2 => scanDecls prop dv rest (idx + 1) st2
    else
      scanDecls prop dv rest (idx + 1) st

/-- A concrete (non-resolve) declaration for property `prop`. -/
def isConcreteFor (prop : String) (d : Decl) : Bool :=
  d.prop == prop && !(isResolveValue d.value)

/-- Does the list contain a concrete declaration for `prop`? -/
def hasConcrete (prop : String) (l : List Decl) : Bool :=
  l.any (isConcreteFor prop)

/-! ## Target checks of `resolve()` (ConflictResolver.ts, lines 176-188)

```
let other: BlockObject | undefined = block.lookup(referenceStr);
assertBlockObject(other, referenceStr, ...);
if (block.equal(other && other.block)) {
  throw new errors.InvalidBlockSyntax(`Cannot resolve conflicts with your own block.`);
}
else if (!resolveInherited && other && other.block.isAncestor(block)) {
  throw new errors.InvalidBlockSyntax(`Cannot resolve conflicts with ancestors of your own block.`);
}
```

`block.lookup(referenceStr)` is external to this fragment; its result is the
`lookupResult` argument. -/

/-- The `assertBlockObject` + self-block + ancestor-block checks; on success
returns the asserted target object. -/
def checkResolveTarget (block : Blk) (resolveInherited : Bool) (referenceStr : String)
    (lookupResult : Option BObj) : Except String BObj :=
  match lookupResult with
  | none => Except.error ("Cannot find " ++ referenceStr)
  | some other =>
    if block.equal (some other.block) then
      Except.error ("Cannot resolve conflicts with your own block.")
    else if !resolveInherited && other.block.isAncestor (some block) then
      Except.error ("Cannot resolve conflicts with ancestors of your own block.")
    else
      Except.ok other

/-- Error message of the no-conflict-found throw (ConflictResolver.ts line 203). -/
def noConflictMsg (prop referenceStr : String) : String :=
  "There are no conflicting values for " ++ prop ++ " found in any selectors targeting " ++ referenceStr ++ "."

/-- The processing of one `resolve()`/`resolve-inherited()` declaration by
`ConflictResolver.resolve` (ConflictResolver.ts, lines 136-208): the sibling
scan, the concrete-value check, the target checks, the inheritance-chain walk
(per-level work abstracted as `classify`), and the final no-conflict check.
Returns the computed `isOverride` flag on success. -/
def resolveOneDecl (prop : String) (resolveInherited : Bool) (referenceStr : String)
    (ruleDecls : List Decl) (block : Blk) (lookupResult : Option BObj)
    (classify : BObj → ConflictType) : Except String Bool :=
  match scanDecls prop (DeclValue.resolve resolveInherited referenceStr) ruleDecls 0 initScan with
  | Except.error e => Except.error e
  | Except.ok st =>
    if st.foundOtherValue.isNone then
      Except.error (noConcreteValueMsg prop)
    else
      match checkResolveTarget block resolveInherited referenceStr lookupResult with
      | Except.error e => Except.error e
      | Except.ok other =>
        let foundConflict := walkChain classify other
        if !resolveInherited && foundConflict == ConflictType.noconflict then
          Except.error (noConflictMsg prop referenceStr)
        else
          Except.ok st.isOverride

/-! ## The one-time Block name setter (Block model source)

```
private hasHadNameReset = false;
constructor(name: string, identifier: FileIdentifier) { super(name); this._identifier = identifier; ... }
get name() { return this._name; }
set name(name: string) {
  if ( this.hasHadNameReset ) {
    throw new CssBlockError('Can not set block name more than once.');
  }
  this._name = name;
  this.hasHadNameReset = true;
}
```
-/

/-- The name-related state of a `Block` instance. -/
structure BlockN where
  name : String
  identifier : String
  hasHadNameReset : Bool
deriving DecidableEq, Repr

/-- `new Block(name, identifier)`: the constructor assigns `_name` directly
(via `super(name)`), leaving `hasHadNameReset` false. -/
def BlockN.create (name identifier : String) : BlockN :=
  { name := name, identifier := identifier, hasHadNameReset := false }

/-- `set name(name)`. -/
def BlockN.setName (b : BlockN) (n : String) : Except String BlockN :=
  if b.hasHadNameReset then
    Except.error ("Can not set block name more than once.")
  else
    Except.ok { b with name := n, hasHadNameReset := true }

/-! ## Stylesheet tree and `BlockCompiler.compile` (BlockCompiler.ts, lines 20-54)

The tree is the ordered list of top-level nodes: rules (selector plus
declarations) and at-rules.  (Only the node kinds the compile pass inspects
are modelled; rules hold their declarations in source order.) -/

/-- A postcss rule: selector text plus declarations. -/
structure Rule where
  selector : String
  decls : List Decl
deriving DecidableEq, Repr

/-- A top-level node of the stylesheet tree. -/
inductive TopNode where
  | rule (r : Rule)
  | atRule (name : String) (params : String)
deriving DecidableEq, Repr

/-- Is `needle` a prefix of `hay`? -/
def listPrefixEq : List Char → List Char → Bool
  | [], _ => true
  | _ :: _, [] => false
  | a :: as, b :: bs => a == b && listPrefixEq as bs

/-- Does `hay` contain `needle` as a contiguous sublist? -/
def hasSubList (needle : List Char) : List Char → Bool
  | [] => listPrefixEq needle []
  | c :: rest => listPrefixEq needle (c :: rest) || hasSubList needle rest

/-- `root.walkRules(/\.root/)`: the unanchored regex matches any selector
containing the substring `.root`. -/
def selectorMatchesDotRoot (sel : String) : Bool :=
  hasSubList ".root".data sel.data

/-- `rule.walkDecls(/^(extends|implements|block-name)$/)`: the anchored regex
matches exactly these three property names. -/
def isBlockOnlyDecl (d : Decl) : Bool :=
  d.prop == "extends" || d.prop == "implements" || d.prop == "block-name"

/-- `root.walkAtRules("block-reference", (atRule) => { atRule.remove(); })`
(BlockCompiler.ts, lines 30-32). -/
def removeBlockReferences (root : List TopNode) : List TopNode :=
  root.filter fun n =>
    match n with
    | TopNode.atRule name _ => name != "block-reference"
    | TopNode.rule _ => true

/-- The `.root` rule cleanup walk (BlockCompiler.ts, lines 33-40): strip
`extends`/`implements`/`block-name` declarations from every rule whose
selector matches `/\.root/`, then remove the rule if it has no nodes left. -/
def cleanRootRules (root : List TopNode) : List TopNode :=
  root.filterMap fun n =>
    match n with
    | TopNode.rule r =>
      if selectorMatchesDotRoot r.selector then
        let r2 : Rule := { r with decls := r.decls.filter (fun d => !(isBlockOnlyDecl d)) }
        if r2.decls.length == 0 then none else some (TopNode.rule r2)
      else
        some (TopNode.rule r)
    | TopNode.atRule name params => some (TopNode.atRule name params)

/-- Steps 2a+2b of `compile`: remove `@block-reference` at-rules, then clean
`.root` rules (BlockCompiler.ts, lines 29-40). -/
def cleanupBlockSyntax (root : List TopNode) : List TopNode :=
  cleanRootRules (removeBlockReferences root)

/-! ## `ConflictResolver.resolveInheritance` (ConflictResolver.ts, lines 71-127)

```
resolveInheritance(root: postcss.Root, block: Block) {
  let blockBase = block.base;
  let blockBaseName = block.baseName;
  if (blockBase && blockBaseName) {
    root.walkRules((rule) => { ... });
  }
}
```

The per-rule body (conflict detection and `resolve-inherited()` injection) is
abstracted as `ruleHandler`; the claims proved about this function concern
only the guard. -/

/-- `resolveInheritance`, with `block.base` / `block.baseName` passed in and
the rule walk body abstracted. -/
def resolveInheritance (blockBase : Option Blk) (blockBaseName : Option String)
    (ruleHandler : Rule → Rule) (root : List TopNode) : List TopNode :=
  if blockBase.isSome && blockBaseName.isSome then
    root.map fun n =>
      match n with
      | TopNode.rule r => TopNode.rule (ruleHandler r)
      | TopNode.atRule name params => TopNode.atRule name params
  else
    root

/-- The pass ordering of `BlockCompiler.compile` (BlockCompiler.ts, lines
20-54): debug processing, block-syntax cleanup, inheritance resolution,
selector rewriting, `resolve()` expansion.  The passes not involved in the
verified claims (`processDebugStatements`, the selector rewrite, `resolve`,
and the optional interoperable-CSS export injection folded into
`resolveStep`) are abstracted as functions on the tree. -/
def compile (debugStep : List TopNode → List TopNode)
    (blockBase : Option Blk) (blockBaseName : Option String) (ruleHandler : Rule → Rule)
    (rewriteStep resolveStep : List TopNode → List TopNode)
    (root : List TopNode) : List TopNode :=
  resolveStep (rewriteStep (resolveInheritance blockBase blockBaseName ruleHandler
    (cleanupBlockSyntax (debugStep root))))

/-! ## Selector algebra (ConflictResolver.ts, lines 18-21 and 297-408)

A `CompoundSelector` is the linked chain of compound selector segments joined
by combinators; each segment carries its ordered list of selector nodes
(rendered here by their source text, e.g. `".a"`).  The chain operations
`clone` / `removeLast` / `append` / `mergeNodes` live in the external
`parseSelector` module (not part of the sources under verification); they are
modelled from the spec, which states their contracts: all return
new/self-contained structures, `mergeNodes(a, b)` clones `a` and appends all
of `b`'s nodes, `removeLast` separates the final combinator+compound from
everything preceding it. -/

/-- A selector combinator, with its source text as `value`. -/
inductive Combinator where
  | descendant
  | child
  | adjacentSibling
  | generalSibling
deriving DecidableEq, Repr

/-- `combinator.value`: the combinator's source text. -/
def Combinator.value : Combinator → String
  | Combinator.descendant => " "
  | Combinator.child => ">"
  | Combinator.adjacentSibling => "+"
  | Combinator.generalSibling => "~"

/-- `const SIBLING_COMBINATORS = new Set(["+", "~"])`. -/
def SIBLING_COMBINATORS : List String := ["+", "~"]

/-- `const HIERARCHICAL_COMBINATORS = new Set([" ", ">"])`. -/
def HIERARCHICAL_COMBINATORS : List String := [" ", ">"]

/-- `const CONTIGUOUS_COMBINATORS = new Set(["+", ">"])`. -/
def CONTIGUOUS_COMBINATORS : List String := ["+", ">"]

/-- `const NONCONTIGUOUS_COMBINATORS = new Set(["~", " "])`. -/
def NONCONTIGUOUS_COMBINATORS : List String := ["~", " "]

/-- A compound selector chain: the final key segment, or a segment followed by
a combinator and the rest of the chain. -/
inductive CompoundSelector where
  | single (nodes : List String)
  | chain (nodes : List String) (comb : Combinator) (rest : CompoundSelector)
deriving DecidableEq, Repr

/-- The selector nodes of the first segment of the chain. -/
def CompoundSelector.nodes : CompoundSelector → List String
  | CompoundSelector.single ns => ns
  | CompoundSelector.chain ns _ _ => ns

/-- Modelled from the spec: `clone` returns a deep copy; with value semantics
this is the identity. -/
def CompoundSelector.clone (s : CompoundSelector) : CompoundSelector := s

/-- Number of compound segments in the chain (`ParsedSelector.length`). -/
def CompoundSelector.segmentCount : CompoundSelector → Nat
  | CompoundSelector.single _ => 1
  | CompoundSelector.chain _ _ rest => 1 + rest.segmentCount

/-- The key (last) segment of the chain (`ParsedSelector.key`). -/
def CompoundSelector.keySegment : CompoundSelector → CompoundSelector
  | CompoundSelector.single ns => CompoundSelector.single ns
  | CompoundSelector.chain _ _ rest => rest.keySegment

/-- Modelled from the spec: `removeLast` detaches the final combinator and
segment, returning the remaining chain and the detached pair (or `none` for a
single segment). -/
def CompoundSelector.removeLast : CompoundSelector → CompoundSelector × Option (Combinator × CompoundSelector)
  | CompoundSelector.single ns => (CompoundSelector.single ns, none)
  | CompoundSelector.chain ns c (CompoundSelector.single ks) =>
    (CompoundSelector.single ns, some (c, CompoundSelector.single ks))
  | CompoundSelector.chain ns c (CompoundSelector.chain ks k rest) =>
    let r := CompoundSelector.removeLast (CompoundSelector.chain ks k rest)
    (CompoundSelector.chain ns c r.1, r.2)

/-- Modelled from the spec: `append(combinator, selector)` appends `t` at the
end of the chain, joined by `c`. -/
def CompoundSelector.append : CompoundSelector → Combinator → CompoundSelector → CompoundSelector
  | CompoundSelector.single ns, c, t => CompoundSelector.chain ns c t
  | CompoundSelector.chain ns c0 rest, c, t => CompoundSelector.chain ns c0 (rest.append c t)

/-- Modelled from the spec: `mergeNodes(a, b)` merges `b`'s nodes into `a`'s
segment (merging `.foo` and `.bar` gives `.foo.bar`), without mutating either
input. -/
def CompoundSelector.mergeNodes (a b : CompoundSelector) : CompoundSelector :=
  match a with
  | CompoundSelector.single ns => CompoundSelector.single (ns ++ b.nodes)
  | CompoundSelector.chain ns c rest => CompoundSelector.chain (ns ++ b.nodes) c rest

/-- A `ParsedSelector`: container around its compound selector chain. -/
structure ParsedSelector where
  selector : CompoundSelector
deriving DecidableEq, Repr

/-- `ParsedSelector.length`: the number of compound segments. -/
def ParsedSelector.length (s : ParsedSelector) : Nat :=
  s.selector.segmentCount

/-- `ParsedSelector.key`: the key segment. -/
def ParsedSelector.key (s : ParsedSelector) : CompoundSelector :=
  s.selector.keySegment

/-- `splitSelector(s)` (ConflictResolver.ts, lines 303-311):

```
s = s.clone();
let last = s.removeLast();
if (last) { return [s, last.combinator, last.selector]; }
else { return [undefined, undefined, s]; }
```
-/
def splitSelector (s : CompoundSelector) :
    Option CompoundSelector × Option Combinator × CompoundSelector :=
  match s.clone.removeLast with
  | (rest, some (c, key)) => (some rest, some c, key)
  | (rest, none) => (none, none, rest)

/-- The combinator-pair case analysis of `mergeKeySelectors` after both
selectors are split (ConflictResolver.ts, lines 327-407). -/
def mergeParts (context1 : Option CompoundSelector) (combinator1 : Option Combinator)
    (key1 : CompoundSelector) (context2 : Option CompoundSelector)
    (combinator2 : Option Combinator) (key2 : CompoundSelector) :
    Except String (List ParsedSelector) :=
  let mergedKey := key1.clone.mergeNodes key2
  match context1, combinator1, context2, combinator2 with
  | some c1, some b1, some c2, some b2 =>
    if CONTIGUOUS_COMBINATORS.contains b1.value && b1.value == b2.value then
      Except.ok [ParsedSelector.mk ((c1.clone.mergeNodes c2).append b1 mergedKey)]
    else if SIBLING_COMBINATORS.contains b1.value && HIERARCHICAL_COMBINATORS.contains b2.value then
      Except.ok [ParsedSelector.mk ((c2.clone.append b2 c1).append b1 mergedKey)]
    else if HIERARCHICAL_COMBINATORS.contains b1.value && SIBLING_COMBINATORS.contains b2.value then
      Except.ok [ParsedSelector.mk ((c1.clone.append b1 c2).append b2 mergedKey)]
    else if NONCONTIGUOUS_COMBINATORS.contains b1.value && NONCONTIGUOUS_COMBINATORS.contains b2.value then
      Except.ok [ParsedSelector.mk ((c1.clone.mergeNodes c2).append b2 mergedKey),
                 ParsedSelector.mk ((c1.clone.append b1 c2.clone).append b2 mergedKey.clone),
                 ParsedSelector.mk ((c2.clone.append b1 c1.clone).append b2 mergedKey.clone)]
    else if NONCONTIGUOUS_COMBINATORS.contains b1.value && CONTIGUOUS_COMBINATORS.contains b2.value
        && ((HIERARCHICAL_COMBINATORS.contains b1.value && HIERARCHICAL_COMBINATORS.contains b2.value)
            || (SIBLING_COMBINATORS.contains b1.value && SIBLING_COMBINATORS.contains b2.value)) then
      Except.ok [ParsedSelector.mk ((c1.clone.mergeNodes c2).append b2 mergedKey),
                 ParsedSelector.mk ((c1.clone.append b1 c2.clone).append b2 mergedKey.clone)]
    else if NONCONTIGUOUS_COMBINATORS.contains b2.value && CONTIGUOUS_COMBINATORS.contains b1.value
        && ((HIERARCHICAL_COMBINATORS.contains b2.value && HIERARCHICAL_COMBINATORS.contains b1.value)
            || (SIBLING_COMBINATORS.contains b2.value && SIBLING_COMBINATORS.contains b1.value)) then
      Except.ok [ParsedSelector.mk ((c1.clone.mergeNodes c2).append b1 mergedKey),
                 ParsedSelector.mk ((c2.clone.append b2 c1.clone).append b1 mergedKey.clone)]
    else
      Except.error ("Cannot merge selectors with combinators: " ++ b1.value ++ " and " ++ b2.value ++ " [FIXME?].")
  | some c1, some b1, _, _ =>
    Except.ok [ParsedSelector.mk (c1.clone.append b1 mergedKey)]
  | _, _, some c2, some b2 =>
    Except.ok [ParsedSelector.mk (c2.clone.append b2 mergedKey)]
  | _, _, _, _ =>
    Except.ok [ParsedSelector.mk mergedKey]

/-- `mergeKeySelectors(s1, s2)` (ConflictResolver.ts, lines 320-408). -/
def mergeKeySelectors (s1 s2 : ParsedSelector) : Except String (List ParsedSelector) :=
  if s1.length > 2 && s2.length > 2 then
    Except.error ("Cannot resolve selectors with more than 1 combinator at this time [FIXME].")
  else
    match splitSelector s1.selector, splitSelector s2.selector with
    | (context1, combinator1, key1), (context2, combinator2, key2) =>
      mergeParts context1 combinator1 key1 context2 combinator2 key2

/-! ## `Style.resolveStyles` (Style model source, `resolveStyles`)

```
private _resolvedStyles: Set<Self> | undefined;
public resolveStyles(): Set<Self> {
  if (this._resolvedStyles) {
    return new Set(this._resolvedStyles);
  }
  let inheritedStyles = this.resolveInheritance();
  this._resolvedStyles = new Set(inheritedStyles);
  this._resolvedStyles.add(this.asStyle());
  for (let s of inheritedStyles) {
    let implied = s.impliedStyles();
    if (!implied) continue;
    for (let i of implied) {
      unionInto(this._resolvedStyles, i.resolveStyles());
    }
  }
  return new Set(this._resolvedStyles);
}
impliedStyles(): Set<Self> | undefined { return undefined; }
```

A style object is its name plus its structural `base` chain.  JS `Set`s are
modelled as insertion-ordered duplicate-free lists living in an explicit heap
(`MemHeap`), so that `new Set(x)` allocating a fresh object, and mutation of a
returned set, are expressible.  The recursion of the (currently unreachable,
since `impliedStyles` always returns `undefined`) implied-styles union is made
total with a fuel parameter. -/

/-- A style object: name plus the `base` inheritance chain. -/
inductive StyleObj where
  | mk (name : String) (base : Option StyleObj)

/-- Decidable equality for style objects. -/
def StyleObj.decEq : (a b : StyleObj) → Decidable (a = b)
  | StyleObj.mk n1 none, StyleObj.mk n2 none =>
    if h : n1 = n2 then
      Decidable.isTrue (by rw [h])
    else
      Decidable.isFalse (fun he => by injection he with h1 h2; exact h h1)
  | StyleObj.mk _ none, StyleObj.mk _ (some _) =>
    Decidable.isFalse (fun he => by injection he with h1 h2; exact Option.noConfusion h2)
  | StyleObj.mk _ (some _), StyleObj.mk _ none =>
    Decidable.isFalse (fun he => by injection he with h1 h2; exact Option.noConfusion h2)
  | StyleObj.mk n1 (some b1), StyleObj.mk n2 (some b2) =>
    if h : n1 = n2 then
      match StyleObj.decEq b1 b2 with
      | Decidable.isTrue hb => Decidable.isTrue (by rw [h, hb])
      | Decidable.isFalse hb =>
        Decidable.isFalse (fun he => by
          injection he with h1 h2
          injection h2 with h3
          exact hb h3)
    else
      Decidable.isFalse (fun he => by injection he with h1 h2; exact h h1)

instance : DecidableEq StyleObj := StyleObj.decEq

/-- `Set.add`: append the element unless already present. -/
def setAdd (l : List StyleObj) (x : StyleObj) : List StyleObj :=
  if x ∈ l then l else l ++ [x]

/-- `new Set(iterable)`: insert the elements in order, deduplicating. -/
def setOfList (l : List StyleObj) : List StyleObj :=
  l.foldl setAdd []

/-- Modelled from the spec: `unionInto(target, source)` (util missing from the
sources) adds every element of `source` into `target`. -/
def unionIntoList (target src : List StyleObj) : List StyleObj :=
  src.foldl setAdd target

/-- Modelled from the spec: `Inheritable.resolveInheritance()` (missing from
the sources) walks the `base` pointers, collecting every ancestor, furthest
first. -/
def resolveInheritanceChain : StyleObj → List StyleObj
  | StyleObj.mk _ none => []
  | StyleObj.mk _ (some b) => resolveInheritanceChain b ++ [b]

/-- `impliedStyles()` from the Style model source: the class-composition
placeholder always returns `undefined`. -/
def impliedStyles (_ : StyleObj) : Option (List StyleObj) := none

/-- The value accumulated in `this._resolvedStyles` by a cache-miss call of
`resolveStyles`: ancestors, then self, then the (currently empty) implied
closure; `fuel` bounds the recursion through implied styles. -/
def resolveStylesFuel : Nat → StyleObj → List StyleObj
  | 0, _ => []
  | Nat.succ fuel, self =>
    let inheritedStyles := resolveInheritanceChain self
    let resolved := setAdd (setOfList inheritedStyles) self
    inheritedStyles.foldl
      (fun acc s =>
        match impliedStyles s with
        | none => acc
        | some implied => implied.foldl (fun a i => unionIntoList a (resolveStylesFuel fuel i)) acc)
      resolved

/-- A heap of JS `Set` objects: allocated sets are addressed by index. -/
structure MemHeap where
  size : Nat
  contents : Nat → List StyleObj

/-- Allocate a fresh `Set` with the given contents. -/
def MemHeap.alloc (h : MemHeap) (v : List StyleObj) : Nat × MemHeap :=
  (h.size, { size := h.size + 1, contents := fun j => if j = h.size then v else h.contents j })

/-- Read a `Set`'s contents. -/
def MemHeap.get (h : MemHeap) (r : Nat) : List StyleObj :=
  h.contents r

/-- Mutate a `Set` object in place (what a caller does to a returned set). -/
def MemHeap.write (h : MemHeap) (r : Nat) (v : List StyleObj) : MemHeap :=
  { h with contents := fun j => if j = r then v else h.contents j }

/-- The per-instance state of a `Style`: its style object and the
`_resolvedStyles` cache field (a reference to a heap set, or unset). -/
structure StyleInstance where
  style : StyleObj
  resolvedStylesRef : Option Nat

/-- A freshly constructed `Style` instance: cache unset. -/
def StyleInstance.create (s : StyleObj) : StyleInstance :=
  { style := s, resolvedStylesRef := none }

/-- `resolveStyles()`: returns the reference of the returned `Set`, the
updated instance, and the updated heap. -/
def resolveStyles (fuel : Nat) (inst : StyleInstance) (h : MemHeap) :
    Nat × StyleInstance × MemHeap :=
  match inst.resolvedStylesRef with
  | some r =>
    let a := h.alloc (h.get r)
    (a.1, inst, a.2)
  | none =>
    let contents := resolveStylesFuel fuel inst.style
    let a1 := h.alloc contents
    let inst2 := { inst with resolvedStylesRef := some a1.1 }
    let a2 := a1.2.alloc (a1.2.get a1.1)
    (a2.1, inst2, a2.2)

/-! ## Concrete example inputs used by counterexamples and witnesses -/

/-- A target object at the bottom of an inheritance chain. -/
def exBaseObj : BObj := BObj.mk (Blk.mk "base.block.css" none) none

/-- A target object whose `base` is `exBaseObj`. -/
def exOtherObj : BObj := BObj.mk (Blk.mk "other.block.css" none) (some exBaseObj)

/-- A per-level classification with `samevalues` at the first level of the
chain (the level that still has a `base`) and `conflict` at the top. -/
def exClassify : BObj → ConflictType := fun o =>
  match o.base with
  | some _ => ConflictType.samevalues
  | none => ConflictType.conflict

/-- A block extending `base.block.css`. -/
def exChildBlk : Blk := Blk.mk "child.block.css" (some (Blk.mk "base.block.css" none))

/-- A `:scope` rule carrying an `extends` declaration. -/
def exScopeRule : Rule :=
  { selector := ":scope", decls := [{ prop := "extends", value := DeclValue.concrete "./base.block.css" }] }

/-- An input tree exercising the block-syntax cleanup. -/
def exCleanupRoot : List TopNode :=
  [TopNode.atRule "block-reference" "base from ./base.block.css",
   TopNode.rule { selector := ".root",
                  decls := [{ prop := "extends", value := DeclValue.concrete "base" },
                            { prop := "color", value := DeclValue.concrete "red" }] }]

/-- A style object with one ancestor. -/
def exStyleChild : StyleObj := StyleObj.mk "child-style" (some (StyleObj.mk "base-style" none))

/-- An empty heap of set objects. -/
def exHeap : MemHeap := MemHeap.mk 0 (fun _ => [])

/-! # Theorems -/

/-! ## C7: the `updateConflict` lattice -/

/-- C7: `updateConflict(t1, t2)` satisfies: the result is `conflict` whenever
either argument is `conflict`; the result is `t2` whenever `t1` is
`noconflict`; when `t1` is `samevalues` the result is `conflict` if `t2` is
`conflict` and `samevalues` otherwise; and `noconflict` is an identity on
either side. -/
theorem updateConflict_lattice :
    ∀ t1 t2 : ConflictType,
      (t1 = ConflictType.conflict ∨ t2 = ConflictType.conflict →
        updateConflict t1 t2 = ConflictType.conflict) ∧
      (t1 = ConflictType.noconflict → updateConflict t1 t2 = t2) ∧
      (t1 = ConflictType.samevalues →
        updateConflict t1 t2 =
          (if t2 = ConflictType.conflict then ConflictType.conflict else ConflictType.samevalues)) ∧
      (t2 = ConflictType.noconflict → updateConflict t1 t2 = t1) := by
  intro t1 t2
  cases t1 <;> cases t2 <;> decide

/-- Witness for C7 at concrete classification values. -/
theorem updateConflict_lattice_witness :
    updateConflict ConflictType.conflict ConflictType.samevalues = ConflictType.conflict ∧
    updateConflict ConflictType.noconflict ConflictType.samevalues = ConflictType.samevalues ∧
    updateConflict ConflictType.samevalues ConflictType.conflict = ConflictType.conflict ∧
    updateConflict ConflictType.samevalues ConflictType.noconflict = ConflictType.samevalues :=
  ⟨(updateConflict_lattice ConflictType.conflict ConflictType.samevalues).1 (Or.inl rfl),
   (updateConflict_lattice ConflictType.noconflict ConflictType.samevalues).2.1 rfl,
   (updateConflict_lattice ConflictType.samevalues ConflictType.conflict).1 (Or.inr rfl),
   (updateConflict_lattice ConflictType.samevalues ConflictType.noconflict).2.2.2 rfl⟩

/-! ## C1: the inheritance-chain walk of `resolve()` -/

/-- C1 (counterexample to the claim as stated): with the first chain level
classified `samevalues` and its base classified `conflict`, the walk returns
`samevalues` — it stops at the `samevalues` level instead of continuing up the
chain to the `conflict` level as the claim asserts. -/
theorem walkChain_stops_on_samevalues_counterexample :
    exClassify exOtherObj = ConflictType.samevalues ∧
    BObj.base exOtherObj = some exBaseObj ∧
    exClassify exBaseObj = ConflictType.conflict ∧
    walkChain exClassify exOtherObj = ConflictType.samevalues :=
  ⟨rfl, rfl, rfl, rfl⟩

/-- C1 (amended): the walk stops at the first chain level whose classification
is not `noconflict` (so a `samevalues` classification ends the walk exactly
like `conflict` does), and continues to the base of the current level exactly
when the level is classified `noconflict`. -/
theorem walkChain_stops_at_first_non_noconflict :
    ∀ (classify : BObj → ConflictType) (o : BObj),
      (classify o ≠ ConflictType.noconflict → walkChain classify o = classify o) ∧
      (classify o = ConflictType.noconflict →
        walkChain classify o =
          (match o.base with
           | none => ConflictType.noconflict
           | some b => walkChain classify b)) := by
  intro classify o
  cases o with
  | mk blk base =>
    cases base with
    | none =>
      constructor
      · intro h
        simp [walkChain, h]
      · intro h
        simp [walkChain, h, BObj.base]
    | some b =>
      constructor
      · intro h
        simp [walkChain, h]
      · intro h
        simp [walkChain, h, BObj.base]

/-- Witness for C1 at a concrete classification and chain. -/
theorem walkChain_stops_at_first_non_noconflict_witness :
    walkChain (fun _ => ConflictType.conflict) exBaseObj = ConflictType.conflict ∧
    walkChain (fun _ => ConflictType.noconflict) exBaseObj = ConflictType.noconflict :=
  ⟨(walkChain_stops_at_first_non_noconflict (fun _ => ConflictType.conflict) exBaseObj).1
      (by decide),
   (walkChain_stops_at_first_non_noconflict (fun _ => ConflictType.noconflict) exBaseObj).2 rfl⟩

/-! ## C8: the one-time Block name setter -/

/-- C8: for every constructed Block, the first assignment through the `name`
setter succeeds and updates the name, and every assignment after a successful
one throws `Can not set block name more than once.`. -/
theorem blockName_settable_exactly_once :
    ∀ (nm ident n : String),
      (BlockN.create nm ident).setName n =
        Except.ok { name := n, identifier := ident, hasHadNameReset := true } ∧
      ∀ (b b2 : BlockN) (n2 m : String),
        b.setName n2 = Except.ok b2 →
        b2.setName m = Except.error ("Can not set block name more than once.") := by
  intro nm ident n
  constructor
  · rfl
  · intro b b2 n2 m h
    cases hb : b.hasHadNameReset with
    | true => simp [BlockN.setName, hb] at h
    | false =>
      simp [BlockN.setName, hb] at h
      rw [← h]
      simp [BlockN.setName]

/-- Witness for C8: set once on a fresh block, then a second set fails. -/
theorem blockName_settable_exactly_once_witness :
    (BlockN.create "block" "file.block.css").setName "custom" =
      Except.ok { name := "custom", identifier := "file.block.css", hasHadNameReset := true } ∧
    (BlockN.mk "custom" "file.block.css" true).setName "again" =
      Except.error ("Can not set block name more than once.") :=
  ⟨(blockName_settable_exactly_once "block" "file.block.css" "custom").1,
   (blockName_settable_exactly_once "block" "file.block.css" "custom").2
     (BlockN.create "block" "file.block.css")
     (BlockN.mk "custom" "file.block.css" true) "custom" "again"
     (blockName_settable_exactly_once "block" "file.block.css" "custom").1⟩

/-! ## C10: `resolveInheritance` is the identity without a base -/

/-- C10: when the block's `base` or `baseName` is unset,
`resolveInheritance` leaves the stylesheet tree completely unchanged,
whatever the per-rule walk would do. -/
theorem resolveInheritance_without_base_is_identity :
    ∀ (blockBase : Option Blk) (blockBaseName : Option String)
      (ruleHandler : Rule → Rule) (root : List TopNode),
      blockBase = none ∨ blockBaseName = none →
      resolveInheritance blockBase blockBaseName ruleHandler root = root := by
  intro bb bn rh root h
  cases h with
  | inl h => subst h; simp [resolveInheritance]
  | inr h => subst h; simp [resolveInheritance]

/-- Witness for C10 on a concrete tree and a rule handler that would rewrite
every rule if it ran. -/
theorem resolveInheritance_without_base_is_identity_witness :
    resolveInheritance none (some "base") (fun _ => exScopeRule) exCleanupRoot = exCleanupRoot :=
  resolveInheritance_without_base_is_identity none (some "base") (fun _ => exScopeRule)
    exCleanupRoot (Or.inl rfl)

/-! ## C6: block-syntax cleanup before inheritance resolution -/

/-- C6 (counterexample to the claim as stated): the cleanup walk matches
selectors against `/\.root/` only, so a `:scope` rule keeps its `extends`
declaration — contrary to the claim that such declarations are removed from
every `.root`/`:scope` rule. -/
theorem cleanup_keeps_extends_in_scope_rule :
    cleanupBlockSyntax [TopNode.rule exScopeRule] = [TopNode.rule exScopeRule] ∧
    selectorMatchesDotRoot ":scope" = false ∧
    Decl.mk "extends" (DeclValue.concrete "./base.block.css") ∈ exScopeRule.decls := by
  refine ⟨by decide, by decide, ?_⟩
  simp [exScopeRule]

/-- C6 (amended): during `compile`, before inheritance resolution runs, every
`@block-reference` at-rule has been removed, every
`extends`/`implements`/`block-name` declaration has been removed from every
rule whose selector matches `/\.root/`, and any such matching rule left with
no declarations has been removed.  (`:scope` rules are not touched: the walk
matches `/\.root/` only.) -/
theorem compile_cleanup_before_inheritance :
    ∀ (debugStep rewriteStep resolveStep : List TopNode → List TopNode)
      (blockBase : Option Blk) (blockBaseName : Option String) (ruleHandler : Rule → Rule)
      (root : List TopNode),
      compile debugStep blockBase blockBaseName ruleHandler rewriteStep resolveStep root =
        resolveStep (rewriteStep (resolveInheritance blockBase blockBaseName ruleHandler
          (cleanupBlockSyntax (debugStep root)))) ∧
      ∀ n ∈ cleanupBlockSyntax (debugStep root),
        (∀ name params, n = TopNode.atRule name params → name ≠ "block-reference") ∧
        (∀ r, n = TopNode.rule r → selectorMatchesDotRoot r.selector = true →
          r.decls ≠ [] ∧ ∀ d ∈ r.decls, isBlockOnlyDecl d = false) := by
  intro debugStep rewriteStep resolveStep blockBase blockBaseName ruleHandler root
  refine ⟨rfl, ?_⟩
  intro n hn
  rw [cleanupBlockSyntax, cleanRootRules, List.mem_filterMap] at hn
  obtain ⟨a, ha, hfa⟩ := hn
  rw [removeBlockReferences, List.mem_filter] at ha
  obtain ⟨_, hkeep⟩ := ha
  cases a with
  | atRule name params =>
    simp only at hfa
    injection hfa with hfa2
    subst hfa2
    constructor
    · intro nm pr hne
      injection hne with h1 h2
      subst h1
      simp only [bne_iff_ne, ne_eq] at hkeep
      exact hkeep
    · intro r hr
      exact absurd hr (by simp)
  | rule r0 =>
    simp only at hfa
    by_cases hsel : selectorMatchesDotRoot r0.selector
    · rw [if_pos hsel] at hfa
      by_cases hlen : (r0.decls.filter (fun d => !(isBlockOnlyDecl d))).length == 0
      · rw [if_pos hlen] at hfa
        exact absurd hfa (by simp)
      · rw [if_neg hlen] at hfa
        injection hfa with hfa2
        subst hfa2
        constructor
        · intro nm pr hne
          exact absurd hne (by simp)
        · intro r hr _
          injection hr with h1
          subst h1
          constructor
          · intro hnil
            apply hlen
            have hnil2 : (r0.decls.filter (fun d => !(isBlockOnlyDecl d))) = [] := hnil
            rw [hnil2]
            rfl
          · intro d hd
            rcases List.mem_filter.1 hd with ⟨_, hbl⟩
            simpa using hbl
    · rw [if_neg hsel] at hfa
      injection hfa with hfa2
      subst hfa2
      constructor
      · intro nm pr hne
        exact absurd hne (by simp)
      · intro r hr hmatch
        injection hr with h1
        subst h1
        exact absurd hmatch (by simpa using hsel)

/-- Witness for C6: a tree with a `@block-reference` at-rule and a `.root`
rule holding `extends` plus one concrete declaration; after cleanup the
surviving `.root` rule is non-empty and free of block-only declarations. -/
theorem compile_cleanup_before_inheritance_witness :
    ({ selector := ".root", decls := [{ prop := "color", value := DeclValue.concrete "red" }] } : Rule).decls ≠ [] ∧
    ∀ d ∈ ({ selector := ".root", decls := [{ prop := "color", value := DeclValue.concrete "red" }] } : Rule).decls,
      isBlockOnlyDecl d = false :=
  ((compile_cleanup_before_inheritance id id id none none id exCleanupRoot).2
      (TopNode.rule { selector := ".root", decls := [{ prop := "color", value := DeclValue.concrete "red" }] })
      (by decide)).2
    { selector := ".root", decls := [{ prop := "color", value := DeclValue.concrete "red" }] }
    rfl (by decide)

/-! ## C4: `mergeKeySelectors` on selectors with one combinator each -/

/-- C4 (counterexample to the claim as stated): `.a ~ .b` and `.c .b` have
combinators `~` and ` `, both of which are non-contiguous, yet
`mergeKeySelectors` returns exactly one selector (the sibling-then-
hierarchical nesting case fires first), not the three alternatives the claim
asserts for two non-contiguous combinators. -/
theorem mergeKeySelectors_mixed_noncontiguous_counterexample :
    NONCONTIGUOUS_COMBINATORS.contains (Combinator.generalSibling.value) = true ∧
    NONCONTIGUOUS_COMBINATORS.contains (Combinator.descendant.value) = true ∧
    mergeKeySelectors
      (ParsedSelector.mk (CompoundSelector.chain [".a"] Combinator.generalSibling (CompoundSelector.single [".b"])))
      (ParsedSelector.mk (CompoundSelector.chain [".c"] Combinator.descendant (CompoundSelector.single [".b"]))) =
      Except.ok [ParsedSelector.mk (CompoundSelector.chain [".c"] Combinator.descendant
        (CompoundSelector.chain [".a"] Combinator.generalSibling (CompoundSelector.single [".b", ".b"])))] ∧
    ([ParsedSelector.mk (CompoundSelector.chain [".c"] Combinator.descendant
        (CompoundSelector.chain [".a"] Combinator.generalSibling (CompoundSelector.single [".b", ".b"])))] : List ParsedSelector).length = 1 :=
  ⟨rfl, rfl, rfl, rfl⟩

/-- C4 (amended): for two selectors with exactly one combinator each: when
both combinators are contiguous (`>` or `+`) and equal, `mergeKeySelectors`
returns exactly one selector, the merged contexts joined to the merged key
under that combinator; when both combinators are non-contiguous and equal
(both ` ` or both `~`), it returns exactly the three alternatives merged-flat,
context1-then-context2, and context2-then-context1, each ending in the merged
key.  (Unequal non-contiguous pairs instead hit the sibling/hierarchical
nesting cases and yield one selector.) -/
theorem mergeKeySelectors_equal_combinator_matrix :
    ∀ (ctx1 ctx2 k1 k2 : List String) (c : Combinator),
      (CONTIGUOUS_COMBINATORS.contains c.value = true →
        mergeKeySelectors
          (ParsedSelector.mk (CompoundSelector.chain ctx1 c (CompoundSelector.single k1)))
          (ParsedSelector.mk (CompoundSelector.chain ctx2 c (CompoundSelector.single k2))) =
        Except.ok [ParsedSelector.mk
          (CompoundSelector.chain (ctx1 ++ ctx2) c (CompoundSelector.single (k1 ++ k2)))]) ∧
      (NONCONTIGUOUS_COMBINATORS.contains c.value = true →
        mergeKeySelectors
          (ParsedSelector.mk (CompoundSelector.chain ctx1 c (CompoundSelector.single k1)))
          (ParsedSelector.mk (CompoundSelector.chain ctx2 c (CompoundSelector.single k2))) =
        Except.ok [ParsedSelector.mk
            (CompoundSelector.chain (ctx1 ++ ctx2) c (CompoundSelector.single (k1 ++ k2))),
          ParsedSelector.mk (CompoundSelector.chain ctx1 c
            (CompoundSelector.chain ctx2 c (CompoundSelector.single (k1 ++ k2)))),
          ParsedSelector.mk (CompoundSelector.chain ctx2 c
            (CompoundSelector.chain ctx1 c (CompoundSelector.single (k1 ++ k2))))]) := by
  intro ctx1 ctx2 k1 k2 c
  cases c <;> constructor <;> intro h
  case descendant.left => exact absurd h (by decide)
  case descendant.right => rfl
  case child.left => rfl
  case child.right => exact absurd h (by decide)
  case adjacentSibling.left => rfl
  case adjacentSibling.right => exact absurd h (by decide)
  case generalSibling.left => exact absurd h (by decide)
  case generalSibling.right => rfl

/-- Witness for C4: `.a > .b` with `.c > .d` yields the single merged
selector; `.a .b` with `.c .d` yields the three alternatives. -/
theorem mergeKeySelectors_equal_combinator_matrix_witness :
    mergeKeySelectors
      (ParsedSelector.mk (CompoundSelector.chain [".a"] Combinator.child (CompoundSelector.single [".b"])))
      (ParsedSelector.mk (CompoundSelector.chain [".c"] Combinator.child (CompoundSelector.single [".d"]))) =
      Except.ok [ParsedSelector.mk (CompoundSelector.chain [".a", ".c"] Combinator.child
        (CompoundSelector.single [".b", ".d"]))] ∧
    mergeKeySelectors
      (ParsedSelector.mk (CompoundSelector.chain [".a"] Combinator.descendant (CompoundSelector.single [".b"])))
      (ParsedSelector.mk (CompoundSelector.chain [".c"] Combinator.descendant (CompoundSelector.single [".d"]))) =
      Except.ok [ParsedSelector.mk (CompoundSelector.chain [".a", ".c"] Combinator.descendant
          (CompoundSelector.single [".b", ".d"])),
        ParsedSelector.mk (CompoundSelector.chain [".a"] Combinator.descendant
          (CompoundSelector.chain [".c"] Combinator.descendant (CompoundSelector.single [".b", ".d"]))),
        ParsedSelector.mk (CompoundSelector.chain [".c"] Combinator.descendant
          (CompoundSelector.chain [".a"] Combinator.descendant (CompoundSelector.single [".b", ".d"])))] :=
  ⟨(mergeKeySelectors_equal_combinator_matrix [".a"] [".c"] [".b"] [".d"] Combinator.child).1 rfl,
   (mergeKeySelectors_equal_combinator_matrix [".a"] [".c"] [".b"] [".d"] Combinator.descendant).2 rfl⟩

/-! ## Scan lemmas shared by C2 and C5 -/

/-- Unfolding equation for `scanDecls` on a cons cell. -/
theorem scanDecls_cons (prop : String) (dv : DeclValue) (d : Decl) (rest : List Decl)
    (idx : Nat) (st : ScanState) :
    scanDecls prop dv (d :: rest) idx st =
      if d.prop == prop then
        match scanStep prop dv st idx d with
        | Except.error e => Except.error e
        | Except.ok st2 => scanDecls prop dv rest (idx + 1) st2
      else
        scanDecls prop dv rest (idx + 1) st := rfl

/-- Scanning a list that contains no concrete declaration for the property
never throws and leaves `foundOtherValue` unset. -/
theorem scanDecls_all_resolve_keeps_none :
    ∀ (prop : String) (dv : DeclValue) (l : List Decl) (idx : Nat) (st : ScanState),
      (∀ d ∈ l, d.prop = prop → isResolveValue d.value = true) →
      st.foundOtherValue = none →
      ∃ st2, scanDecls prop dv l idx st = Except.ok st2 ∧ st2.foundOtherValue = none := by
  intro prop dv l
  induction l with
  | nil =>
    intro idx st _ hf
    exact ⟨st, rfl, hf⟩
  | cons d rest ih =>
    intro idx st h hf
    rw [scanDecls_cons]
    cases hp : d.prop == prop with
    | false =>
      rw [if_neg (by simp [hp])]
      exact ih (idx + 1) st (fun x hx => h x (List.mem_cons_of_mem d hx)) hf
    | true =>
      rw [if_pos (by simp [hp])]
      have hres : isResolveValue d.value = true :=
        h d (List.mem_cons_self d rest) (by simpa using hp)
      cases hv : d.value == dv with
      | true =>
        rw [scanStep, if_pos (by simp [hres]), if_pos (by simp [hv])]
        exact ih (idx + 1) _ (fun x hx => h x (List.mem_cons_of_mem d hx)) (by simpa using hf)
      | false =>
        rw [scanStep, if_pos (by simp [hres]), if_neg (by simp [hv])]
        exact ih (idx + 1) st (fun x hx => h x (List.mem_cons_of_mem d hx)) hf

/-- Scanning before reaching the resolve declaration: no throw, `foundResolve`
stays unset, `isOverride` is untouched, and after the segment
`foundOtherValue` is set iff it already was or the segment holds a concrete
declaration of the property; any set index is inherited or below
`idx + length`. -/
theorem scanDecls_before_resolve :
    ∀ (prop : String) (dv : DeclValue) (l : List Decl) (idx : Nat) (st : ScanState),
      (∀ d ∈ l, ¬(d.prop = prop ∧ d.value = dv)) →
      st.foundResolve = none →
      ∃ st2, scanDecls prop dv l idx st = Except.ok st2 ∧
        st2.foundResolve = none ∧
        st2.isOverride = st.isOverride ∧
        st2.foundOtherValue.isSome = (st.foundOtherValue.isSome || hasConcrete prop l) ∧
        (∀ j, st2.foundOtherValue = some j → st.foundOtherValue = some j ∨ j < idx + l.length) := by
  intro prop dv l
  induction l with
  | nil =>
    intro idx st _ hr
    exact ⟨st, rfl, hr, rfl, by simp [hasConcrete], fun j hj => Or.inl hj⟩
  | cons d rest ih =>
    intro idx st h hr
    rw [scanDecls_cons]
    cases hp : d.prop == prop with
    | false =>
      rw [if_neg (by simp [hp])]
      obtain ⟨st2, hs, h1, h2, h3, h4⟩ :=
        ih (idx + 1) st (fun x hx => h x (List.mem_cons_of_mem d hx)) hr
      have h6 : isConcreteFor prop d = false := by simp [isConcreteFor, hp]
      refine ⟨st2, hs, h1, h2, ?_, ?_⟩
      · rw [h3, show hasConcrete prop (d :: rest) = (isConcreteFor prop d || hasConcrete prop rest) from rfl,
          h6, Bool.false_or]
      · intro j hj
        rcases h4 j hj with hj2 | hj2
        · exact Or.inl hj2
        · exact Or.inr (by simp only [List.length_cons]; omega)
    | true =>
      rw [if_pos (by simp [hp])]
      cases hres : isResolveValue d.value with
      | true =>
        have hv : (d.value == dv) = false := by
          cases hv : d.value == dv with
          | false => rfl
          | true =>
            exact absurd ⟨by simpa using hp, by simpa using hv⟩ (h d (List.mem_cons_self d rest))
        rw [scanStep, if_pos (by simp [hres]), if_neg (by simp [hv])]
        obtain ⟨st2, hs, h1, h2, h3, h4⟩ :=
          ih (idx + 1) st (fun x hx => h x (List.mem_cons_of_mem d hx)) hr
        have h6 : isConcreteFor prop d = false := by simp [isConcreteFor, hres]
        refine ⟨st2, hs, h1, h2, ?_, ?_⟩
        · rw [h3, show hasConcrete prop (d :: rest) = (isConcreteFor prop d || hasConcrete prop rest) from rfl,
            h6, Bool.false_or]
        · intro j hj
          rcases h4 j hj with hj2 | hj2
          · exact Or.inl hj2
          · exact Or.inr (by simp only [List.length_cons]; omega)
      | false =>
        rw [scanStep, if_neg (by simp [hres])]
        have hstep : (match st.foundOtherValue, st.foundResolve with
            | some j, some k =>
              if j < k then
                Except.error (mixedResolveMsg prop)
              else
                Except.ok { st with foundOtherValue := some idx, otherDecls := st.otherDecls ++ [d] }
            | _, _ =>
              Except.ok { st with foundOtherValue := some idx, otherDecls := st.otherDecls ++ [d] }) =
            Except.ok { st with foundOtherValue := some idx, otherDecls := st.otherDecls ++ [d] } := by
          rw [hr]
          cases st.foundOtherValue <;> rfl
        rw [hstep]
        show ∃ st2, scanDecls prop dv rest (idx + 1)
            { st with foundOtherValue := some idx, otherDecls := st.otherDecls ++ [d] } = Except.ok st2 ∧ _
        obtain ⟨st2, hs, h1, h2, h3, h4⟩ :=
          ih (idx + 1) { st with foundOtherValue := some idx, otherDecls := st.otherDecls ++ [d] }
            (fun x hx => h x (List.mem_cons_of_mem d hx)) hr
        have h5 : st2.foundOtherValue.isSome = true := h3.trans rfl
        have h6 : isConcreteFor prop d = true := by simp [isConcreteFor, hp, hres]
        refine ⟨st2, hs, h1, h2, ?_, ?_⟩
        · rw [h5, show hasConcrete prop (d :: rest) = (isConcreteFor prop d || hasConcrete prop rest) from rfl,
            h6]
          simp
        · intro j hj
          rcases h4 j hj with hj2 | hj2
          · have hj3 : some idx = some j := hj2
            injection hj3 with hj4
            exact Or.inr (by simp only [List.length_cons]; omega)
          · exact Or.inr (by simp only [List.length_cons]; omega)

/-- Scanning after the resolve declaration when no concrete declaration
preceded the resolve (`foundOtherValue` unset or set past the resolve index):
no throw, and `isOverride` is untouched. -/
theorem scanDecls_after_resolve_no_pre :
    ∀ (prop : String) (dv : DeclValue) (l : List Decl) (idx : Nat) (st : ScanState) (m : Nat),
      (∀ d ∈ l, ¬(d.prop = prop ∧ d.value = dv)) →
      st.foundResolve = some m →
      (st.foundOtherValue = none ∨ ∃ j, st.foundOtherValue = some j ∧ m < j) →
      m < idx →
      ∃ st2, scanDecls prop dv l idx st = Except.ok st2 ∧ st2.isOverride = st.isOverride := by
  intro prop dv l
  induction l with
  | nil =>
    intro idx st m _ _ _ _
    exact ⟨st, rfl, rfl⟩
  | cons d rest ih =>
    intro idx st m h hr hfov hm
    rw [scanDecls_cons]
    cases hp : d.prop == prop with
    | false =>
      rw [if_neg (by simp [hp])]
      exact ih (idx + 1) st m (fun x hx => h x (List.mem_cons_of_mem d hx)) hr hfov
        (Nat.lt_succ_of_lt hm)
    | true =>
      rw [if_pos (by simp [hp])]
      cases hres : isResolveValue d.value with
      | true =>
        have hv : (d.value == dv) = false := by
          cases hv : d.value == dv with
          | false => rfl
          | true =>
            exact absurd ⟨by simpa using hp, by simpa using hv⟩ (h d (List.mem_cons_self d rest))
        rw [scanStep, if_pos (by simp [hres]), if_neg (by simp [hv])]
        exact ih (idx + 1) st m (fun x hx => h x (List.mem_cons_of_mem d hx)) hr hfov
          (Nat.lt_succ_of_lt hm)
      | false =>
        rw [scanStep, if_neg (by simp [hres])]
        have hstep : (match st.foundOtherValue, st.foundResolve with
            | some j, some k =>
              if j < k then
                Except.error (mixedResolveMsg prop)
              else
                Except.ok { st with foundOtherValue := some idx, otherDecls := st.otherDecls ++ [d] }
            | _, _ =>
              Except.ok { st with foundOtherValue := some idx, otherDecls := st.otherDecls ++ [d] }) =
            Except.ok { st with foundOtherValue := some idx, otherDecls := st.otherDecls ++ [d] } := by
          rcases hfov with hfov | ⟨j, hfov, hmj⟩
          · simp only [hfov, hr]
          · simp only [hfov, hr]
            show (if j < m then Except.error (mixedResolveMsg prop)
                else Except.ok (ScanState.mk (st.otherDecls ++ [d]) st.isOverride (some idx) (some m))) =
              Except.ok (ScanState.mk (st.otherDecls ++ [d]) st.isOverride (some idx) (some m))
            rw [if_neg (by omega)]
        rw [hstep]
        show ∃ st2, scanDecls prop dv rest (idx + 1)
            { st with foundOtherValue := some idx, otherDecls := st.otherDecls ++ [d] } = Except.ok st2 ∧ _
        obtain ⟨st2, hs, hov⟩ :=
          ih (idx + 1) { st with foundOtherValue := some idx, otherDecls := st.otherDecls ++ [d] } m
            (fun x hx => h x (List.mem_cons_of_mem d hx)) hr (Or.inr ⟨idx, rfl, hm⟩)
            (Nat.lt_succ_of_lt hm)
        exact ⟨st2, hs, hov⟩

/-- Scanning after the resolve declaration when a concrete declaration did
precede the resolve (`foundOtherValue = some j` with `j` before the resolve
index `m`): the scan throws the mixed before/after error exactly when the
remaining segment holds a concrete declaration of the property, and otherwise
succeeds without touching `isOverride`. -/
theorem scanDecls_after_resolve_with_pre :
    ∀ (prop : String) (dv : DeclValue) (l : List Decl) (idx : Nat) (st : ScanState) (m j : Nat),
      (∀ d ∈ l, ¬(d.prop = prop ∧ d.value = dv)) →
      st.foundResolve = some m →
      st.foundOtherValue = some j →
      j < m →
      (hasConcrete prop l = true →
        scanDecls prop dv l idx st = Except.error (mixedResolveMsg prop)) ∧
      (hasConcrete prop l = false →
        ∃ st2, scanDecls prop dv l idx st = Except.ok st2 ∧ st2.isOverride = st.isOverride) := by
  intro prop dv l
  induction l with
  | nil =>
    intro idx st m j _ _ _ _
    exact ⟨fun hc => absurd hc (by simp [hasConcrete]), fun _ => ⟨st, rfl, rfl⟩⟩
  | cons d rest ih =>
    intro idx st m j h hr hfov hjm
    rw [scanDecls_cons]
    cases hp : d.prop == prop with
    | false =>
      rw [if_neg (by simp [hp])]
      have h6 : isConcreteFor prop d = false := by simp [isConcreteFor, hp]
      have hrec := ih (idx + 1) st m j (fun x hx => h x (List.mem_cons_of_mem d hx)) hr hfov hjm
      constructor
      · intro hc
        rw [show hasConcrete prop (d :: rest) = (isConcreteFor prop d || hasConcrete prop rest) from rfl,
          h6, Bool.false_or] at hc
        exact hrec.1 hc
      · intro hc
        rw [show hasConcrete prop (d :: rest) = (isConcreteFor prop d || hasConcrete prop rest) from rfl,
          h6, Bool.false_or] at hc
        exact hrec.2 hc
    | true =>
      rw [if_pos (by simp [hp])]
      cases hres : isResolveValue d.value with
      | true =>
        have hv : (d.value == dv) = false := by
          cases hv : d.value == dv with
          | false => rfl
          | true =>
            exact absurd ⟨by simpa using hp, by simpa using hv⟩ (h d (List.mem_cons_self d rest))
        rw [scanStep, if_pos (by simp [hres]), if_neg (by simp [hv])]
        have h6 : isConcreteFor prop d = false := by simp [isConcreteFor, hres]
        have hrec := ih (idx + 1) st m j (fun x hx => h x (List.mem_cons_of_mem d hx)) hr hfov hjm
        constructor
        · intro hc
          rw [show hasConcrete prop (d :: rest) = (isConcreteFor prop d || hasConcrete prop rest) from rfl,
            h6, Bool.false_or] at hc
          exact hrec.1 hc
        · intro hc
          rw [show hasConcrete prop (d :: rest) = (isConcreteFor prop d || hasConcrete prop rest) from rfl,
            h6, Bool.false_or] at hc
          exact hrec.2 hc
      | false =>
        rw [scanStep, if_neg (by simp [hres])]
        have hstep : (match st.foundOtherValue, st.foundResolve with
            | some j, some k =>
              if j < k then
                Except.error (mixedResolveMsg prop)
              else
                Except.ok { st with foundOtherValue := some idx, otherDecls := st.otherDecls ++ [d] }
            | _, _ =>
              Except.ok { st with foundOtherValue := some idx, otherDecls := st.otherDecls ++ [d] }) =
            Except.error (mixedResolveMsg prop) := by
          simp only [hfov, hr]
          show (if j < m then Except.error (mixedResolveMsg prop)
              else Except.ok (ScanState.mk (st.otherDecls ++ [d]) st.isOverride (some idx) (some m))) =
            Except.error (mixedResolveMsg prop)
          rw [if_pos hjm]
        rw [hstep]
        have h6 : isConcreteFor prop d = true := by simp [isConcreteFor, hp, hres]
        constructor
        · intro _
          rfl
        · intro hc
          rw [show hasConcrete prop (d :: rest) = (isConcreteFor prop d || hasConcrete prop rest) from rfl,
            h6, Bool.true_or] at hc
          exact absurd hc (by simp)

/-- Scanning an appended list decomposes sequentially. -/
theorem scanDecls_append :
    ∀ (prop : String) (dv : DeclValue) (l1 l2 : List Decl) (idx : Nat) (st : ScanState),
      scanDecls prop dv (l1 ++ l2) idx st =
        match scanDecls prop dv l1 idx st with
        | Except.error e => Except.error e
        | Except.ok st2 => scanDecls prop dv l2 (idx + l1.length) st2 := by
  intro prop dv l1
  induction l1 with
  | nil =>
    intro l2 idx st
    simp [scanDecls]
  | cons d rest ih =>
    intro l2 idx st
    rw [List.cons_append, scanDecls_cons, scanDecls_cons]
    cases hp : d.prop == prop with
    | false =>
      rw [if_neg (by simp [hp]), if_neg (by simp [hp]), ih]
      have harith : idx + 1 + rest.length = idx + (d :: rest).length := by
        simp only [List.length_cons]
        omega
      rw [harith]
    | true =>
      rw [if_pos (by simp [hp]), if_pos (by simp [hp])]
      cases hstep : scanStep prop dv st idx d with
      | error e => rfl
      | ok st2 =>
        show scanDecls prop dv (rest ++ l2) (idx + 1) st2 =
          match scanDecls prop dv rest (idx + 1) st2 with
          | Except.error e => Except.error e
          | Except.ok st3 => scanDecls prop dv l2 (idx + (d :: rest).length) st3
        rw [ih]
        have harith : idx + 1 + rest.length = idx + (d :: rest).length := by
          simp only [List.length_cons]
          omega
        rw [harith]

/-- Stepping the scan over the resolve declaration itself: records the index
in `foundResolve` and latches `isOverride` to whether a concrete value was
already seen. -/
theorem scanDecls_at_resolve (prop referenceStr : String) (resolveInherited : Bool)
    (post : List Decl) (idx : Nat) (st : ScanState) :
    scanDecls prop (DeclValue.resolve resolveInherited referenceStr)
      (Decl.mk prop (DeclValue.resolve resolveInherited referenceStr) :: post) idx st =
      scanDecls prop (DeclValue.resolve resolveInherited referenceStr) post (idx + 1)
        { st with foundResolve := some idx, isOverride := st.foundOtherValue.isSome } := by
  rw [scanDecls_cons, if_pos (by simp), scanStep, if_pos (by simp [isResolveValue]),
    if_pos (by simp)]

/-! ## C2: override vs underride classification and the mixed-order error -/

/-- C2: for a rule whose declarations are `pre ++ [prop: resolve(...)] ++ post`
(with the resolve declaration occurring nowhere else): if concrete
declarations of the property occur both before and after the resolve
declaration, the scan — and hence `resolve()` — throws the
"must happen either before or after all other values" syntax error; otherwise
the scan succeeds and classifies the resolution as an override exactly when a
concrete declaration of the property occurs before the resolve declaration. -/
theorem resolve_override_iff_concrete_before :
    ∀ (prop referenceStr : String) (resolveInherited : Bool) (pre post : List Decl)
      (block : Blk) (lookupResult : Option BObj) (classify : BObj → ConflictType),
      (∀ d ∈ pre, ¬(d.prop = prop ∧ d.value = DeclValue.resolve resolveInherited referenceStr)) →
      (∀ d ∈ post, ¬(d.prop = prop ∧ d.value = DeclValue.resolve resolveInherited referenceStr)) →
      (hasConcrete prop pre = true → hasConcrete prop post = true →
        scanDecls prop (DeclValue.resolve resolveInherited referenceStr)
          (pre ++ Decl.mk prop (DeclValue.resolve resolveInherited referenceStr) :: post) 0 initScan =
          Except.error (mixedResolveMsg prop) ∧
        resolveOneDecl prop resolveInherited referenceStr
          (pre ++ Decl.mk prop (DeclValue.resolve resolveInherited referenceStr) :: post)
          block lookupResult classify = Except.error (mixedResolveMsg prop)) ∧
      (¬(hasConcrete prop pre = true ∧ hasConcrete prop post = true) →
        ∃ st2, scanDecls prop (DeclValue.resolve resolveInherited referenceStr)
            (pre ++ Decl.mk prop (DeclValue.resolve resolveInherited referenceStr) :: post) 0 initScan =
            Except.ok st2 ∧ st2.isOverride = hasConcrete prop pre) := by
  intro prop referenceStr resolveInherited pre post block lookupResult classify hpre hpost
  obtain ⟨st1, hs1, hr1, hov1, hsome1, hbnd1⟩ :=
    scanDecls_before_resolve prop (DeclValue.resolve resolveInherited referenceStr) pre 0 initScan
      hpre rfl
  have hApp : scanDecls prop (DeclValue.resolve resolveInherited referenceStr)
      (pre ++ Decl.mk prop (DeclValue.resolve resolveInherited referenceStr) :: post) 0 initScan =
      scanDecls prop (DeclValue.resolve resolveInherited referenceStr)
        (Decl.mk prop (DeclValue.resolve resolveInherited referenceStr) :: post) (0 + pre.length) st1 := by
    rw [scanDecls_append, hs1]
  rw [Nat.zero_add] at hApp
  rw [scanDecls_at_resolve] at hApp
  cases hcp : hasConcrete prop pre with
  | false =>
    cases hfo : st1.foundOtherValue with
    | some j =>
      rw [hfo, hcp] at hsome1
      simp [initScan] at hsome1
    | none =>
      obtain ⟨st2, hs2, hov2⟩ :=
        scanDecls_after_resolve_no_pre prop (DeclValue.resolve resolveInherited referenceStr)
          post (pre.length + 1)
          { st1 with foundResolve := some pre.length, isOverride := st1.foundOtherValue.isSome }
          pre.length hpost rfl (Or.inl hfo) (Nat.lt_succ_self _)
      have hSL : scanDecls prop (DeclValue.resolve resolveInherited referenceStr)
          (pre ++ Decl.mk prop (DeclValue.resolve resolveInherited referenceStr) :: post) 0 initScan =
          Except.ok st2 := hApp.trans hs2
      constructor
      · intro hc
        exact absurd hc (by simp)
      · intro _
        refine ⟨st2, hSL, ?_⟩
        rw [hov2]
        show st1.foundOtherValue.isSome = false
        rw [hfo]
        rfl
  | true =>
    cases hfo : st1.foundOtherValue with
    | none =>
      rw [hfo, hcp] at hsome1
      simp at hsome1
    | some j =>
      have hj : j < pre.length := by
        rcases hbnd1 j hfo with hj2 | hj2
        · exact absurd hj2 (by simp [initScan])
        · simpa using hj2
      obtain ⟨herr, hok⟩ :=
        scanDecls_after_resolve_with_pre prop (DeclValue.resolve resolveInherited referenceStr)
          post (pre.length + 1)
          { st1 with foundResolve := some pre.length, isOverride := st1.foundOtherValue.isSome }
          pre.length j hpost rfl hfo hj
      constructor
      · intro _ hcPost
        have hSL : scanDecls prop (DeclValue.resolve resolveInherited referenceStr)
            (pre ++ Decl.mk prop (DeclValue.resolve resolveInherited referenceStr) :: post) 0 initScan =
            Except.error (mixedResolveMsg prop) := hApp.trans (herr hcPost)
        refine ⟨hSL, ?_⟩
        simp only [resolveOneDecl, hSL]
      · intro hnot
        have hcPost : hasConcrete prop post = false := by
          cases hcP : hasConcrete prop post with
          | true => exact absurd ⟨rfl, hcP⟩ hnot
          | false => rfl
        obtain ⟨st2, hs2, hov2⟩ := hok hcPost
        refine ⟨st2, hApp.trans hs2, ?_⟩
        rw [hov2]
        show st1.foundOtherValue.isSome = true
        rw [hfo]
        rfl

/-- Witness for C2: `color: red; color: resolve("other.foo");` is an override;
`color: resolve("other.foo"); color: red;` is an underride;
`color: red; color: resolve("other.foo"); color: blue;` throws the mixed
before/after error. -/
theorem resolve_override_iff_concrete_before_witness :
    (∃ st2, scanDecls "color" (DeclValue.resolve false "other.foo")
        ([Decl.mk "color" (DeclValue.concrete "red")] ++
          Decl.mk "color" (DeclValue.resolve false "other.foo") :: []) 0 initScan =
        Except.ok st2 ∧ st2.isOverride = hasConcrete "color" [Decl.mk "color" (DeclValue.concrete "red")]) ∧
    (∃ st2, scanDecls "color" (DeclValue.resolve false "other.foo")
        ([] ++ Decl.mk "color" (DeclValue.resolve false "other.foo") ::
          [Decl.mk "color" (DeclValue.concrete "red")]) 0 initScan =
        Except.ok st2 ∧ st2.isOverride = hasConcrete "color" []) ∧
    scanDecls "color" (DeclValue.resolve false "other.foo")
      ([Decl.mk "color" (DeclValue.concrete "red")] ++
        Decl.mk "color" (DeclValue.resolve false "other.foo") ::
        [Decl.mk "color" (DeclValue.concrete "blue")]) 0 initScan =
      Except.error (mixedResolveMsg "color") :=
  ⟨(resolve_override_iff_concrete_before "color" "other.foo" false
      [Decl.mk "color" (DeclValue.concrete "red")] [] (Blk.mk "self.css" none) none
      (fun _ => ConflictType.noconflict) (by decide) (by decide)).2 (by decide),
   (resolve_override_iff_concrete_before "color" "other.foo" false
      [] [Decl.mk "color" (DeclValue.concrete "red")] (Blk.mk "self.css" none) none
      (fun _ => ConflictType.noconflict) (by decide) (by decide)).2 (by decide),
   ((resolve_override_iff_concrete_before "color" "other.foo" false
      [Decl.mk "color" (DeclValue.concrete "red")] [Decl.mk "color" (DeclValue.concrete "blue")]
      (Blk.mk "self.css" none) none
      (fun _ => ConflictType.noconflict) (by decide) (by decide)).1 (by decide) (by decide)).1⟩

/-! ## C5: a resolve with no concrete value throws, before any lookup or walk -/

/-- C5: for a rule with no concrete declaration of the property, processing a
`resolve()`/`resolve-inherited()` declaration throws `Cannot resolve ...
without a concrete value.` — whatever `block.lookup` would return and whatever
the chain walk would classify (the error fires before either happens). -/
theorem resolve_without_concrete_value_errors :
    ∀ (prop referenceStr : String) (resolveInherited : Bool) (ruleDecls : List Decl)
      (block : Blk) (lookupResult : Option BObj) (classify : BObj → ConflictType),
      (∀ d ∈ ruleDecls, d.prop = prop → isResolveValue d.value = true) →
      resolveOneDecl prop resolveInherited referenceStr ruleDecls block lookupResult classify =
        Except.error (noConcreteValueMsg prop) := by
  intro prop referenceStr resolveInherited ruleDecls block lookupResult classify h
  obtain ⟨st2, hs, hfov⟩ :=
    scanDecls_all_resolve_keeps_none prop (DeclValue.resolve resolveInherited referenceStr)
      ruleDecls 0 initScan h rfl
  simp only [resolveOneDecl, hs, hfov]
  rfl

/-- Witness for C5: `color: resolve("other.foo");` alone. -/
theorem resolve_without_concrete_value_errors_witness :
    resolveOneDecl "color" false "other.foo"
      [Decl.mk "color" (DeclValue.resolve false "other.foo")]
      (Blk.mk "self.css" none) (some exOtherObj) exClassify =
      Except.error (noConcreteValueMsg "color") :=
  resolve_without_concrete_value_errors "color" "other.foo" false
    [Decl.mk "color" (DeclValue.resolve false "other.foo")]
    (Blk.mk "self.css" none) (some exOtherObj) exClassify (by decide)

/-! ## C3: self-block and ancestor-block resolve targets -/

/-- C3: `resolve()` throws when the lookup target's block has the same
identifier as the current block; an explicit (non-inherited) resolve whose
target's block is an ancestor (by identifier, one or more `base` steps up) of
the current block throws; and a `resolve-inherited()` targeting the direct
ancestor (a block with a different identifier) passes both checks. -/
theorem checkResolveTarget_self_and_ancestor :
    ∀ (block : Blk) (resolveInherited : Bool) (referenceStr : String) (other : BObj),
      (block.identifier = (BObj.block other).identifier →
        checkResolveTarget block resolveInherited referenceStr (some other) =
          Except.error ("Cannot resolve conflicts with your own block.")) ∧
      (block.equal (some (BObj.block other)) = false →
        (BObj.block other).isAncestor (some block) = true →
        checkResolveTarget block false referenceStr (some other) =
          Except.error ("Cannot resolve conflicts with ancestors of your own block.")) ∧
      (block.base = some (BObj.block other) →
        block.identifier ≠ (BObj.block other).identifier →
        checkResolveTarget block true referenceStr (some other) = Except.ok other) := by
  intro block resolveInherited referenceStr other
  refine ⟨?_, ?_, ?_⟩
  · intro h
    simp only [checkResolveTarget]
    rw [if_pos (by simp [Blk.equal, h])]
  · intro heq hanc
    simp only [checkResolveTarget]
    rw [if_neg (by simp [heq]), if_pos (by simp [hanc])]
  · intro _ hne
    simp only [checkResolveTarget]
    rw [if_neg (by simp [Blk.equal, hne]), if_neg (by simp)]

/-- Witness for C3: resolving against one's own block and (explicitly)
against an ancestor both throw; `resolve-inherited` against the direct
ancestor passes. -/
theorem checkResolveTarget_self_and_ancestor_witness :
    checkResolveTarget (Blk.mk "base.block.css" none) false "base.foo" (some exBaseObj) =
      Except.error ("Cannot resolve conflicts with your own block.") ∧
    checkResolveTarget exChildBlk false "base.foo" (some exBaseObj) =
      Except.error ("Cannot resolve conflicts with ancestors of your own block.") ∧
    checkResolveTarget exChildBlk true "base.foo" (some exBaseObj) = Except.ok exBaseObj :=
  ⟨(checkResolveTarget_self_and_ancestor (Blk.mk "base.block.css" none) false "base.foo"
      exBaseObj).1 rfl,
   (checkResolveTarget_self_and_ancestor exChildBlk false "base.foo" exBaseObj).2.1
      rfl rfl,
   (checkResolveTarget_self_and_ancestor exChildBlk true "base.foo" exBaseObj).2.2
      rfl (by decide)⟩

/-! ## Set and heap lemmas for C9 -/

/-- Membership in `Set.add`. -/
theorem mem_setAdd (l : List StyleObj) (x y : StyleObj) :
    y ∈ setAdd l x ↔ (y ∈ l ∨ y = x) := by
  by_cases h : x ∈ l
  · rw [setAdd, if_pos h]
    constructor
    · exact fun hy => Or.inl hy
    · rintro (hy | rfl)
      · exact hy
      · exact h
  · rw [setAdd, if_neg h]
    simp

/-- Membership in a fold of `Set.add`. -/
theorem mem_foldl_setAdd (l : List StyleObj) :
    ∀ (acc : List StyleObj) (y : StyleObj), y ∈ l.foldl setAdd acc ↔ (y ∈ acc ∨ y ∈ l) := by
  induction l with
  | nil => intro acc y; simp
  | cons d rest ih =>
    intro acc y
    rw [List.foldl_cons, ih, mem_setAdd, List.mem_cons]
    tauto

/-- Membership in `new Set(iterable)`. -/
theorem mem_setOfList (l : List StyleObj) (y : StyleObj) : y ∈ setOfList l ↔ y ∈ l := by
  rw [setOfList, mem_foldl_setAdd]
  simp

/-- With `impliedStyles` constantly `undefined`, a positive-fuel
`resolveStylesFuel` is the deduplicated inheritance chain plus self. -/
theorem resolveStylesFuel_succ (fuel : Nat) (self : StyleObj) :
    resolveStylesFuel (fuel + 1) self = setAdd (setOfList (resolveInheritanceChain self)) self := by
  have haux : ∀ (l acc : List StyleObj),
      l.foldl (fun acc s =>
        match impliedStyles s with
        | none => acc
        | some implied => implied.foldl (fun a i => unionIntoList a (resolveStylesFuel fuel i)) acc)
        acc = acc := by
    intro l
    induction l with
    | nil => intro acc; rfl
    | cons d rest ih =>
      intro acc
      rw [List.foldl_cons]
      exact ih acc
  rw [resolveStylesFuel]
  exact haux (resolveInheritanceChain self) (setAdd (setOfList (resolveInheritanceChain self)) self)

/-- Membership in the computed resolve-styles value: self plus every style
reachable by walking `base` pointers (the implied-styles hook contributes
nothing). -/
theorem mem_resolveStylesFuel (fuel : Nat) (self : StyleObj) (x : StyleObj) :
    x ∈ resolveStylesFuel (fuel + 1) self ↔ (x = self ∨ x ∈ resolveInheritanceChain self) := by
  rw [resolveStylesFuel_succ, mem_setAdd, mem_setOfList]
  tauto

/-- Reading the set just allocated. -/
theorem MemHeap.get_alloc_at_size (h : MemHeap) (v : List StyleObj) :
    (h.alloc v).2.get h.size = v := by
  simp [MemHeap.alloc, MemHeap.get]

/-- Allocation does not disturb other sets. -/
theorem MemHeap.get_alloc_old (h : MemHeap) (v : List StyleObj) (r : Nat) (hr : r ≠ h.size) :
    (h.alloc v).2.get r = h.get r := by
  simp [MemHeap.alloc, MemHeap.get, hr]

/-- Writing one set does not disturb another. -/
theorem MemHeap.get_write_ne (h : MemHeap) (v : List StyleObj) (r w : Nat) (hr : r ≠ w) :
    (h.write w v).get r = h.get r := by
  simp [MemHeap.write, MemHeap.get, hr]

/-- Reading the set just allocated, addressed by the returned reference. -/
theorem MemHeap.get_alloc_at_fst (h : MemHeap) (v : List StyleObj) :
    (h.alloc v).2.get (h.alloc v).1 = v := by
  simp [MemHeap.alloc, MemHeap.get]

/-- Unfolding a cache-miss call of `resolveStyles` on a fresh instance. -/
theorem resolveStyles_miss (fuel : Nat) (self : StyleObj) (h : MemHeap) :
    resolveStyles fuel (StyleInstance.create self) h =
      (h.size + 1,
       { style := self, resolvedStylesRef := some h.size },
       ((h.alloc (resolveStylesFuel fuel self)).2.alloc
         ((h.alloc (resolveStylesFuel fuel self)).2.get h.size)).2) := by
  simp [resolveStyles, StyleInstance.create, MemHeap.alloc, MemHeap.get]

/-- Unfolding a cache-hit call of `resolveStyles`. -/
theorem resolveStyles_hit (fuel : Nat) (self : StyleObj) (r : Nat) (h : MemHeap) :
    resolveStyles fuel { style := self, resolvedStylesRef := some r } h =
      ((h.alloc (h.get r)).1, { style := self, resolvedStylesRef := some r },
       (h.alloc (h.get r)).2) := by
  simp [resolveStyles]

/-! ## C9: `resolveStyles` closure, memoization, defensive copy -/

/-- C9: a first `resolveStyles()` call on a fresh instance returns a set
containing the style itself plus everything reachable by walking `base`
pointers (the implied-styles hook is currently empty); the result is cached on
the instance, so a second call leaves the instance unchanged and returns the
same contents; and each call returns a freshly allocated copy, so overwriting
a returned set does not change the contents a later call returns.  `fuel`
bounds the (currently unreachable) recursion through implied styles; any
positive fuel suffices. -/
theorem resolveStyles_closure_memoized_defensive :
    ∀ (fuel : Nat) (self : StyleObj) (h : MemHeap) (r1 : Nat) (i1 : StyleInstance) (h1 : MemHeap),
      0 < fuel →
      resolveStyles fuel (StyleInstance.create self) h = (r1, i1, h1) →
      (∀ x, x ∈ h1.get r1 ↔ (x = self ∨ x ∈ resolveInheritanceChain self)) ∧
      (∀ r2 i2 h2, resolveStyles fuel i1 h1 = (r2, i2, h2) →
        i2 = i1 ∧ h2.get r2 = h1.get r1) ∧
      (∀ junk r3 i3 h3, resolveStyles fuel i1 (h1.write r1 junk) = (r3, i3, h3) →
        h3.get r3 = h1.get r1) := by
  intro fuel self h r1 i1 h1 hf heq
  cases fuel with
  | zero => exact absurd hf (by omega)
  | succ n =>
    rw [resolveStyles_miss] at heq
    rw [Prod.mk.injEq, Prod.mk.injEq] at heq
    obtain ⟨hre, hie, hhe⟩ := heq
    subst hre
    subst hie
    subst hhe
    rw [MemHeap.get_alloc_at_size]
    have hsz : ((h.alloc (resolveStylesFuel (n + 1) self)).2.alloc
        (resolveStylesFuel (n + 1) self)).2.get (h.size + 1) = resolveStylesFuel (n + 1) self :=
      MemHeap.get_alloc_at_size (h.alloc (resolveStylesFuel (n + 1) self)).2
        (resolveStylesFuel (n + 1) self)
    have hcache : ((h.alloc (resolveStylesFuel (n + 1) self)).2.alloc
        (resolveStylesFuel (n + 1) self)).2.get h.size = resolveStylesFuel (n + 1) self := by
      rw [MemHeap.get_alloc_old _ _ _ (by show h.size ≠ h.size + 1; omega)]
      exact MemHeap.get_alloc_at_size h (resolveStylesFuel (n + 1) self)
    refine ⟨?_, ?_, ?_⟩
    · intro x
      rw [hsz]
      exact mem_resolveStylesFuel n self x
    · intro r2 i2 h2 heq2
      rw [resolveStyles_hit] at heq2
      rw [Prod.mk.injEq, Prod.mk.injEq] at heq2
      obtain ⟨hr2, hi2, hh2⟩ := heq2
      subst hr2
      subst hi2
      subst hh2
      refine ⟨rfl, ?_⟩
      rw [MemHeap.get_alloc_at_fst, hcache, hsz]
    · intro junk r3 i3 h3 heq3
      rw [resolveStyles_hit] at heq3
      rw [Prod.mk.injEq, Prod.mk.injEq] at heq3
      obtain ⟨hr3, hi3, hh3⟩ := heq3
      subst hr3
      subst hi3
      subst hh3
      rw [MemHeap.get_alloc_at_fst,
        MemHeap.get_write_ne _ _ _ _ (by show h.size ≠ h.size + 1; omega), hcache, hsz]

/-- Witness for C9: a style with one ancestor, fuel 1, an empty heap; the
returned set contains both the style and its ancestor. -/
theorem resolveStyles_closure_memoized_defensive_witness :
    exStyleChild ∈
      ((resolveStyles 1 (StyleInstance.create exStyleChild) exHeap).2.2).get
        ((resolveStyles 1 (StyleInstance.create exStyleChild) exHeap).1) ∧
    StyleObj.mk "base-style" none ∈
      ((resolveStyles 1 (StyleInstance.create exStyleChild) exHeap).2.2).get
        ((resolveStyles 1 (StyleInstance.create exStyleChild) exHeap).1) :=
  ⟨((resolveStyles_closure_memoized_defensive 1 exStyleChild exHeap
        (resolveStyles 1 (StyleInstance.create exStyleChild) exHeap).1
        (resolveStyles 1 (StyleInstance.create exStyleChild) exHeap).2.1
        (resolveStyles 1 (StyleInstance.create exStyleChild) exHeap).2.2
        (by omega) rfl).1 exStyleChild).2 (Or.inl rfl),
   ((resolveStyles_closure_memoized_defensive 1 exStyleChild exHeap
        (resolveStyles 1 (StyleInstance.create exStyleChild) exHeap).1
        (resolveStyles 1 (StyleInstance.create exStyleChild) exHeap).2.1
        (resolveStyles 1 (StyleInstance.create exStyleChild) exHeap).2.2
        (by omega) rfl).1 (StyleObj.mk "base-style" none)).2
      (Or.inr (by simp [exStyleChild, resolveInheritanceChain]))⟩

end CssBlocks
